import Mathlib

/-!
Shallow embedding of `src/pydns/aresolver.py` (asynchronous recursive DNS
resolver).  Pure parts of the source are translated to Lean functions;
stateful parts (the single-flight pending map and work queue) become
explicit state passing; the event loop's awaits on external collaborators
(the recursive top-level `query`, the network) become oracle parameters;
fallible code returns `Except`.  The `utils` and `types` modules of the
package are not under `src/`; the definitions taken from them are marked
`Modelled from the spec:` and follow the spec's words.
-/

namespace pydns

/-- Modelled from the spec: record type codes of the `types` module
(IANA registry, spec section 6). -/
def types.A : Nat := 1

/-- Modelled from the spec: NS type code. -/
def types.NS : Nat := 2

/-- Modelled from the spec: CNAME type code. -/
def types.CNAME : Nat := 5

/-- Modelled from the spec: SOA type code. -/
def types.SOA : Nat := 6

/-- Modelled from the spec: PTR type code. -/
def types.PTR : Nat := 12

/-- Modelled from the spec: MX type code. -/
def types.MX : Nat := 15

/-- Modelled from the spec: AAAA type code. -/
def types.AAAA : Nat := 28

/-- Modelled from the spec: ANY wildcard type code (255). -/
def types.ANY : Nat := 255

/-- `A_TYPES = types.A, types.AAAA` (aresolver.py line 10). -/
def A_TYPES : List Nat := [types.A, types.AAAA]

/-- Modelled from the spec: a `utils.Record` — name, qtype code, payload and
signed TTL (`-1` marks a permanent record).  The payload is a string (IP for
A/AAAA, domain name for CNAME/NS); the structured SOA/MX payload is not
needed by any operation embedded here. -/
structure Record where
  name : String
  qtype : Nat
  data : String
  ttl : Int
deriving DecidableEq

/-- `rec.copy(name = fqdn)` (aresolver.py line 109): clone with a new name. -/
def Record.copy (r : Record) (name : String) : Record :=
  { r with name := name }

/-- Modelled from the spec: a `utils.DNSMessage` under assembly — question,
answer, authority and additional sections plus the `aa`, `r`, `ra` flags. -/
structure DNSMessage where
  qd : List Record := []
  an : List Record := []
  ns : List Record := []
  ar : List Record := []
  aa : Nat := 0
  r : Nat := 0
  ra : Nat := 0
deriving DecidableEq

/-- Modelled from the spec: the cache (`utils.Hosts` / `DNSMemCache`) is a
keyed store mapping a name to the records filed under it; duplicates are
permitted.  The source stores records without an insertion timestamp
(spec section 9), so no expiry is modelled. -/
abbrev Cache := List (String × Record)

/-- Modelled from the spec: `add(record)` / `add_host(key, record)` files the
record under the given name. -/
def add_host (c : Cache) (key : String) (r : Record) : Cache :=
  c ++ [(key, r)]

/-- Python `s.lower()`, character-wise over the string's characters. -/
def strLower (s : String) : String :=
  ⟨s.data.map Char.toLower⟩

/-- Modelled from the spec: a requested qtype (or set of qtypes) matches a
stored record's qtype when they are equal or the request is the ANY
wildcard. -/
def qtypeMatch (sel : List Nat) (qt : Nat) : Bool :=
  sel.any (fun s => s == types.ANY || s == qt)

/-- Modelled from the spec: `cache.query(name, qtype_or_set)` yields every
record filed under `name` (names compared case-insensitively) whose qtype
matches the request. -/
def cacheQuery (c : Cache) (name : String) (sel : List Nat) : List Record :=
  ((c.filter (fun e => strLower e.1 == strLower name)).map Prod.snd).filter
    (fun r => qtypeMatch sel r.qtype)

/-- A (fqdn, qtype) single-flight key. -/
abbrev Key := String × Nat

/-- The mutable state of `AsyncResolver` relevant to the single-flight
queue: the pending map `self.futures` (waiters identified by a numeric id),
the work queue `self.queue`, and a counter supplying fresh waiter ids. -/
structure ResolverState where
  futures : List (Key × Nat)
  queue : List Key
  nextId : Nat
deriving DecidableEq

/-- `self.futures.get(key)` (aresolver.py line 75). -/
def lookupFuture (fs : List (Key × Nat)) (k : Key) : Option Nat :=
  (fs.find? (fun e => decide (e.1 = k))).map Prod.snd

/-- `self.futures.pop(key)` (aresolver.py line 225): drop the key's entry. -/
def eraseKey (fs : List (Key × Nat)) (k : Key) : List (Key × Nat) :=
  fs.filter (fun e => decide (e.1 ≠ k))

/-- `AsyncResolver.query_future` (aresolver.py lines 71-79): under the lock,
return the pending waiter for `(fqdn, qtype)` when one exists; otherwise
create a fresh waiter, store it under the key, enqueue the key on the work
queue, and return it. -/
def query_future (st : ResolverState) (fqdn : String) (qtype : Nat) :
    Nat × ResolverState :=
  let key : Key := (fqdn, qtype)
  match lookupFuture st.futures key with
  | some fid => (fid, st)
  | none =>
      (st.nextId,
       { futures := st.futures ++ [(key, st.nextId)]
         queue := st.queue ++ [key]
         nextId := st.nextId + 1 })

/-- The pending map holds at most one waiter per key. -/
def distinctKeys (fs : List (Key × Nat)) : Prop :=
  (fs.map Prod.fst).Nodup

/-- A Python exception escaping a coroutine.  `nameError` is raised by the
reference to the undefined variable `r` at aresolver.py line 102;
`dnsError` is `utils.DNSError`. -/
inductive PyErr where
  | nameError
  | dnsError
deriving DecidableEq

instance {ε α : Type} [DecidableEq ε] [DecidableEq α] :
    DecidableEq (Except ε α) := fun a b =>
  match a, b with
  | .ok x, .ok y => decidable_of_iff (x = y) (by simp)
  | .ok _, .error _ => .isFalse (by simp)
  | .error _, .ok _ => .isFalse (by simp)
  | .error x, .error y => decidable_of_iff (x = y) (by simp)

/-- `fqdn.endswith(d)` (Python `str.endswith`). -/
def endsWith (s suffx : String) : Bool :=
  suffx.data.isSuffixOf s.data

/-- The per-record body of the direct-match loop of `AsyncResolver.query_cache`
(aresolver.py lines 100-111), threading `res` and the answer count `n`.
When a cached record has qtype NS the source evaluates `r.data` for an
undefined variable `r` (line 102) and a `NameError` escapes; otherwise the
record is appended to `res.an` renamed to `fqdn`, counted unless it is a
CNAME the caller did not ask for. -/
def directLoop (fqdn : String) (qtype : Nat) :
    List Record → DNSMessage → Nat → Except PyErr (DNSMessage × Nat)
  | [], res, n => .ok (res, n)
  | rec :: rest, res, n =>
      if rec.qtype = types.NS then
        .error .nameError
      else
        directLoop fqdn qtype rest { res with an := res.an ++ [rec.copy fqdn] }
          (if qtype = types.CNAME ∨ rec.qtype ≠ types.CNAME then n + 1 else n)

/-- The CNAME-chase loop of `AsyncResolver.query_cache` (aresolver.py lines
89-94): for each cached CNAME, recursively `self.query(rec.data, qtype)`
(modelled by the oracle `qc`); a sub-result that is absent or has `r > 0` is
skipped, otherwise its answers are merged into `res.an` and `res.ns`/`res.ar`
are overwritten with the sub-result's. -/
def cnameLoop (qc : String → Nat → Option DNSMessage) (qtype : Nat) :
    List Record → DNSMessage → DNSMessage
  | [], res => res
  | rec :: rest, res =>
      cnameLoop qc qtype rest
        (match qc rec.data qtype with
         | none => res
         | some cres =>
             if cres.r > 0 then res
             else { res with an := res.an ++ cres.an, ns := cres.ns, ar := cres.ar })

/-- `AsyncResolver.query_cache` (aresolver.py lines 81-121).  `qc` is the
oracle for the recursive awaits of `self.query`; `rootdomains` and
`recursion_available` are the class attributes; the returned Bool is the
truthiness of the Python return value (`True`, or `None` when `n` is 0). -/
def query_cache (qc : String → Nat → Option DNSMessage) (cache : Cache)
    (rootdomains : List String) (recursion_available : Nat)
    (res : DNSMessage) (fqdn : String) (qtype : Nat) :
    Except PyErr (DNSMessage × Bool) :=
  let cname := cacheQuery cache fqdn [types.CNAME]
  if cname ≠ [] then
    let res := { res with an := res.an ++ cname }
    if recursion_available = 0 ∨ qtype = types.CNAME then .ok (res, true)
    else .ok (cnameLoop qc qtype cname res, true)
  else
    let data := cacheQuery cache fqdn [qtype]
    match directLoop fqdn qtype data res 0 with
    | .error e => .error e
    | .ok (res, n) =>
        if (rootdomains.filter (fun d => endsWith fqdn d)) ≠ [] then
          let n' := if n = 0 then 1 else n
          let res := if n = 0 then { res with r := 3 } else res
          let res := { res with
            aa := 1,
            ns := res.ns ++
              [{ name := fqdn, qtype := types.NS, data := "localhost",
                 ttl := -1 }],
            ar := res.ar ++
              [{ name := fqdn, qtype := types.A, data := "127.0.0.1",
                 ttl := -1 }] }
          .ok (res, decide (n' ≠ 0))
        else
          .ok (res, decide (n ≠ 0))

/-- Python `fqdn.partition('.')` restricted to the two components the source
uses: the first label and the remainder after the first dot (empty when
there is no dot). -/
def partitionDot (s : String) : String × String :=
  match s.data.splitOn '.' with
  | [] => ("", "")
  | first :: rest =>
      (⟨first⟩, ⟨(rest.intersperse ['.']).flatten⟩)

/-- One label depth of `AsyncResolver.get_nameservers` (aresolver.py lines
127-135): for every cached NS record at `fqdn`, yield its data directly when
it is an IP (`utils.ip_type(host) is not None`, modelled by the predicate
`isIP`), else yield the data of the cached A/AAAA records for the target. -/
def levelYields (isIP : String → Bool) (cache : Cache) (fqdn : String) :
    List String :=
  (cacheQuery cache fqdn [types.NS]).flatMap (fun rec =>
    if isIP rec.data then [rec.data]
    else (cacheQuery cache rec.data A_TYPES).map Record.data)

/-- The `while fqdn and empty` loop of `AsyncResolver.get_nameservers`
(aresolver.py lines 125-135), fuelled by the string length (each iteration
strips at least one character, so `fqdn.length` iterations suffice): strip
the first label, collect this depth's yields, and descend only while no IP
has been yielded. -/
def gnsLoop (isIP : String → Bool) (cache : Cache) :
    Nat → String → List String
  | 0, _ => []
  | fuel + 1, fqdn =>
      if fqdn = "" then []
      else
        let rest := (partitionDot fqdn).2
        let ys := levelYields isIP cache rest
        ys ++ (if ys = [] then gnsLoop isIP cache fuel rest else [])

/-- `AsyncResolver.get_nameservers` (aresolver.py lines 123-135), the
generator materialised as the list of yielded IP strings. -/
def get_nameservers (isIP : String → Bool) (cache : Cache) (fqdn : String) :
    List String :=
  gnsLoop isIP cache fqdn.length fqdn

/-- Outcome of one UDP attempt against a candidate nameserver, the oracle for
the awaits at aresolver.py lines 155-160: the 1-second endpoint creation
timed out, the 3-second wait for a datagram timed out, or a datagram
arrived. -/
inductive AttemptOutcome where
  | connectTimeout
  | readTimeout
  | received (data : List Nat)
deriving DecidableEq

/-- What one candidate attempt leaves behind: whether no transport remains
open, and the accepted reply bytes if any. -/
structure AttemptResult where
  closed : Bool
  reply : Option (List Nat)
deriving DecidableEq

/-- One candidate attempt of `AsyncResolver.query_remote` (aresolver.py lines
152-167) with `CallbackProtocol` (lines 38-48); `qid = qdata[:2]` is the
request transaction id.  On `connectTimeout` no endpoint was created, so
nothing is left open.  On `readTimeout` the `asyncio.TimeoutError` handler
(lines 164-165) is reached without any call to `transport.close()`, leaving
the endpoint open.  When a datagram arrives, `datagram_received` (line 46)
closes the transport and line 161 closes it again; a reply whose first two
bytes differ from `qid` then raises `utils.DNSError` (lines 162-163), which
is caught (lines 166-167), so no reply is produced. -/
def udpAttempt (qid : List Nat) (o : AttemptOutcome) : AttemptResult :=
  match o with
  | .connectTimeout => { closed := true, reply := none }
  | .readTimeout => { closed := false, reply := none }
  | .received d =>
      if qid.isPrefixOf d then { closed := true, reply := some d }
      else { closed := true, reply := none }

/-- The `for ip in nsip` candidate loop of `AsyncResolver.query_remote`
(aresolver.py lines 152-171): attempt each candidate in order; a timeout or
a `utils.DNSError` (transaction-id mismatch) moves on to the next candidate;
the first accepted datagram is returned.  `net` is the network oracle giving
each candidate's attempt outcome; `qdata` is the packed request, whose first
two bytes are the transaction id (line 150). -/
def tryServers (qdata : List Nat) (net : String → AttemptOutcome) :
    List String → Option (List Nat)
  | [] => none
  | ip :: rest =>
      match (udpAttempt (qdata.take 2) (net ip)).reply with
      | some d => some d
      | none => tryServers qdata net rest

/-- The cache-insertion loop of `AsyncResolver.query_remote` (aresolver.py
lines 173-175): every parsed record with `ttl > 0` whose qtype is neither
SOA nor MX is inserted into the cache under its own name. -/
def insertLoop (cache : Cache) : List Record → Cache
  | [] => cache
  | r :: rs =>
      insertLoop
        (if r.ttl > 0 ∧ ¬(r.qtype = types.SOA ∨ r.qtype = types.MX) then
          add_host cache r.name r
        else cache) rs

/-- The answer-section loop of `AsyncResolver.query_remote` (aresolver.py
lines 176-182): append each answer record to `res.an`, queue CNAME targets
for the next iteration, and count the record when its name matches the
question name case-insensitively and it is not an unrequested CNAME. -/
def anLoop (qname : String) (qtype : Nat) :
    List Record → DNSMessage → List String → Nat →
    DNSMessage × List String × Nat
  | [], res, cname, n => (res, cname, n)
  | r :: rs, res, cname, n =>
      anLoop qname qtype rs { res with an := res.an ++ [r] }
        (if r.qtype = types.CNAME then cname ++ [r.data] else cname)
        (if strLower r.name = strLower qname ∧
            (qtype = types.CNAME ∨ r.qtype ≠ types.CNAME) then n + 1 else n)

/-- The authority-section loop of `AsyncResolver.query_remote` (aresolver.py
lines 183-186): append each record to `res.ns`, counting SOA records and,
when the caller asked for NS, every record. -/
def nsLoop (qtype : Nat) :
    List Record → DNSMessage → Nat → DNSMessage × Nat
  | [], res, n => (res, n)
  | r :: rs, res, n =>
      nsLoop qtype rs { res with ns := res.ns ++ [r] }
        (if r.qtype = types.SOA ∨ qtype = types.NS then n + 1 else n)

/-- The result of one iteration body of `AsyncResolver.query_remote` after a
response is parsed. -/
structure IterResult where
  res : DNSMessage
  cache : Cache
  n : Nat
  cname : List String
  nsip : List String
deriving DecidableEq

/-- The post-parse body of one iteration of `AsyncResolver.query_remote`
(aresolver.py lines 172-188 and 203-204): insert the cacheable records,
process the answer and authority sections, extend `res.ar`, take the glue
A/AAAA data of the additional section as next-hop candidates, and propagate
a positive response code.  (The no-glue fallback of lines 189-202, which
resolves authority hosts through recursive `self.query` calls, is outside
every claim and not modelled.)  `qname` is `req.qd[0].name`, `n` and
`cname` the loop variables entering the iteration. -/
def processResponse (res cres : DNSMessage) (qname : String) (qtype : Nat)
    (cache : Cache) (cname : List String) (n : Nat) : IterResult :=
  let cache1 := insertLoop cache (cres.an ++ cres.ns ++ cres.ar)
  let a := anLoop qname qtype cres.an res cname n
  let b := nsLoop qtype cres.ns a.1 a.2.2
  let res1 := { b.1 with ar := b.1.ar ++ cres.ar }
  let res2 := if cres.r > 0 then { res1 with r := cres.r } else res1
  { res := res2, cache := cache1, n := b.2, cname := a.2.1,
    nsip := (cres.ar.filter (fun i => decide (i.qtype ∈ A_TYPES))).map
      Record.data }

/-- Whether the waiter with a given id is fulfilled within the 3-second
deadline of `asyncio.wait_for(future, 3.0)` (aresolver.py line 211), and
with what message — the oracle for the await in `AsyncResolver.query`. -/
inductive AwaitOutcome where
  | fulfilled (m : DNSMessage)
  | timedOut
deriving DecidableEq

/-- `AsyncResolver.query` (aresolver.py lines 207-214): obtain (or join) the
single-flight waiter for the key, await it under the 3-second deadline
(outcome given by the oracle `o`, indexed by waiter id); on
`asyncio.TimeoutError` return `None`, else the waiter's message. -/
def query (st : ResolverState) (fqdn : String) (qtype : Nat)
    (o : Nat → AwaitOutcome) : Option DNSMessage × ResolverState :=
  let fs := query_future st fqdn qtype
  match o fs.1 with
  | .timedOut => (none, fs.2)
  | .fulfilled m => (some m, fs.2)

/-- The fresh response built by `AsyncResolver.query_key` (aresolver.py lines
219-220): recursion-available flag set, the question record appended.  The
question `utils.Record(utils.REQUEST, name = fqdn, qtype = qtype)` carries
no payload or TTL of interest. -/
def freshRes (ra : Nat) (fqdn : String) (qtype : Nat) : DNSMessage :=
  { qd := [{ name := fqdn, qtype := qtype, data := "", ttl := 0 }], ra := ra }

/-- What a run of `AsyncResolver.query_key` leaves behind: the pending map
afterwards, the message delivered to the waiter (none when the waiter was
cancelled or an exception escaped), whether `query_remote` was awaited, and
whether an exception escaped the task. -/
structure QKResult where
  futures : List (Key × Nat)
  delivered : Option DNSMessage
  remoteCalled : Bool
  exn : Option PyErr
deriving DecidableEq

/-- The tail of `AsyncResolver.query_key` (aresolver.py lines 223-227): set
`res.r = 2` when neither resolver succeeded, pop the key's entry under the
lock, and fulfil the waiter unless it was cancelled. -/
def finishKey (st : ResolverState) (key : Key) (cancelled : Bool)
    (res : DNSMessage) (ret : Bool) (remoteCalled : Bool) : QKResult :=
  let res := if ret then res else { res with r := 2 }
  { futures := eraseKey st.futures key,
    delivered := if cancelled then none else some res,
    remoteCalled := remoteCalled, exn := none }

/-- `AsyncResolver.query_key` (aresolver.py lines 216-227): build a fresh
response with the question appended, run the cache resolver and — only when
it returned a falsy value — the remote resolver (modelled by the oracle
`remote`, threading the response under assembly), then finish.  An exception
escaping either resolver aborts the task: the pending map keeps the key's
entry and the waiter is never fulfilled.  `cancelled` is whether the waiter
was cancelled by the time of delivery (line 226). -/
def query_key (qc : String → Nat → Option DNSMessage) (cache : Cache)
    (rootdomains : List String) (ra : Nat)
    (remote : DNSMessage → Except PyErr (DNSMessage × Bool))
    (st : ResolverState) (key : Key) (cancelled : Bool) : QKResult :=
  let res0 := freshRes ra key.1 key.2
  match query_cache qc cache rootdomains ra res0 key.1 key.2 with
  | .error e =>
      { futures := st.futures, delivered := none, remoteCalled := false,
        exn := some e }
  | .ok (res1, cret) =>
      if cret then finishKey st key cancelled res1 true false
      else
        match remote res1 with
        | .error e =>
            { futures := st.futures, delivered := none, remoteCalled := true,
              exn := some e }
        | .ok (res2, rret) => finishKey st key cancelled res2 rret true

/-! ## Lemmas about the single-flight pending map -/

theorem lookupFuture_none_iff (fs : List (Key × Nat)) (k : Key) :
    lookupFuture fs k = none ↔ ∀ e ∈ fs, e.1 ≠ k := by
  simp [lookupFuture, List.find?_eq_none]

theorem lookupFuture_append_self (fs : List (Key × Nat)) (k : Key) (i : Nat)
    (h : lookupFuture fs k = none) :
    lookupFuture (fs ++ [(k, i)]) k = some i := by
  rw [lookupFuture_none_iff] at h
  induction fs with
  | nil => simp [lookupFuture, List.find?]
  | cons e fs ih =>
      have he : e.1 ≠ k := h e (by simp)
      simp only [lookupFuture, List.cons_append, List.find?] at ih ⊢
      rw [show decide (e.1 = k) = false from by simpa using he]
      exact ih (fun x hx => h x (List.mem_cons_of_mem _ hx))

theorem distinctKeys_append (fs : List (Key × Nat)) (k : Key) (i : Nat)
    (hd : distinctKeys fs) (h : lookupFuture fs k = none) :
    distinctKeys (fs ++ [(k, i)]) := by
  unfold distinctKeys at *
  rw [List.map_append, List.nodup_append]
  refine ⟨hd, List.nodup_singleton _, ?_⟩
  intro a ha hb
  simp at hb
  subst hb
  rw [lookupFuture_none_iff] at h
  rcases List.mem_map.1 ha with ⟨e, he, rfl⟩
  exact h e he rfl

/-- C1: the pending map holds at most one waiter per (name, qtype) key, and
`query_future` returns the stored waiter when the key is present (leaving the
state untouched), otherwise stores a fresh waiter under the key and enqueues
the key on the work queue; hence a second caller for the same key obtains the
same waiter. -/
theorem query_future_single_flight (st : ResolverState) (f : String) (q : Nat)
    (hdist : distinctKeys st.futures) :
    (∀ w, lookupFuture st.futures (f, q) = some w →
        query_future st f q = (w, st)) ∧
    (lookupFuture st.futures (f, q) = none →
        query_future st f q =
          (st.nextId,
           { futures := st.futures ++ [((f, q), st.nextId)],
             queue := st.queue ++ [(f, q)],
             nextId := st.nextId + 1 })) ∧
    distinctKeys (query_future st f q).2.futures ∧
    (query_future (query_future st f q).2 f q).1 = (query_future st f q).1 := by
  rcases hl : lookupFuture st.futures (f, q) with _ | w
  · refine ⟨?_, ?_, ?_, ?_⟩
    · intro w hw
      simp at hw
    · intro _
      simp [query_future, hl]
    · simp only [query_future, hl]
      exact distinctKeys_append _ _ _ hdist hl
    · simp only [query_future, hl]
      rw [lookupFuture_append_self st.futures (f, q) st.nextId hl]
  · refine ⟨?_, ?_, ?_, ?_⟩
    · intro w' hw
      cases hw
      simp [query_future, hl]
    · intro hn
      simp at hn
    · simpa [query_future, hl] using hdist
    · simp [query_future, hl]

/-- Witness for C1 at a concrete state: a pending map holding one entry for
("a.test", 1). -/
theorem query_future_single_flight_witness :
    distinctKeys [((("a.test" : String), (1 : Nat)), 7)] ∧
    ((∀ w, lookupFuture [((("a.test" : String), (1 : Nat)), 7)]
          ("a.test", 1) = some w →
        query_future ⟨[(("a.test", 1), 7)], [], 8⟩ "a.test" 1 =
          (w, ⟨[(("a.test", 1), 7)], [], 8⟩)) ∧
     (lookupFuture [((("a.test" : String), (1 : Nat)), 7)] ("a.test", 1) =
          none →
        query_future ⟨[(("a.test", 1), 7)], [], 8⟩ "a.test" 1 =
          (8, { futures := [(("a.test", 1), 7), (("a.test", 1), 8)],
                queue := [("a.test", 1)], nextId := 9 })) ∧
     distinctKeys
       (query_future ⟨[(("a.test", 1), 7)], [], 8⟩ "a.test" 1).2.futures ∧
     (query_future
        (query_future ⟨[(("a.test", 1), 7)], [], 8⟩ "a.test" 1).2
        "a.test" 1).1 =
       (query_future ⟨[(("a.test", 1), 7)], [], 8⟩ "a.test" 1).1) := by
  constructor
  · simp [distinctKeys]
  · exact query_future_single_flight ⟨[(("a.test", 1), 7)], [], 8⟩ "a.test" 1
      (by simp [distinctKeys])

/-! ## Lemmas about the remote resolver's response processing -/

theorem insertLoop_mem (rs : List Record) (cache : Cache)
    (pr : String × Record) :
    pr ∈ insertLoop cache rs ↔
      pr ∈ cache ∨ ∃ x ∈ rs,
        (x.ttl > 0 ∧ ¬(x.qtype = types.SOA ∨ x.qtype = types.MX)) ∧
          pr = (x.name, x) := by
  induction rs generalizing cache with
  | nil => simp [insertLoop]
  | cons x rs ih =>
      rw [insertLoop, ih]
      by_cases hx : x.ttl > 0 ∧ ¬(x.qtype = types.SOA ∨ x.qtype = types.MX)
      · simp only [if_pos hx, add_host, List.mem_append, List.mem_singleton]
        constructor
        · rintro (⟨h | h⟩ | h)
          · exact Or.inl h
          · exact Or.inr ⟨x, by simp, hx, h⟩
          · rcases h with ⟨y, hy, hcy, hpy⟩
            exact Or.inr ⟨y, by simp [hy], hcy, hpy⟩
        · rintro (h | ⟨y, hy, hcy, hpy⟩)
          · exact Or.inl (Or.inl h)
          · rcases List.mem_cons.1 hy with rfl | hy
            · exact Or.inl (Or.inr hpy)
            · exact Or.inr ⟨y, hy, hcy, hpy⟩
      · simp only [if_neg hx]
        constructor
        · rintro (h | ⟨y, hy, hcy, hpy⟩)
          · exact Or.inl h
          · exact Or.inr ⟨y, by simp [hy], hcy, hpy⟩
        · rintro (h | ⟨y, hy, hcy, hpy⟩)
          · exact Or.inl h
          · rcases List.mem_cons.1 hy with rfl | hy
            · exact absurd hcy hx
            · exact Or.inr ⟨y, hy, hcy, hpy⟩

theorem anLoop_msg (qname : String) (qtype : Nat) (rs : List Record)
    (res : DNSMessage) (cname : List String) (n : Nat) :
    (anLoop qname qtype rs res cname n).1 =
      { res with an := res.an ++ rs } := by
  induction rs generalizing res cname n with
  | nil => simp [anLoop]
  | cons r rs ih => simp [anLoop, ih]

theorem nsLoop_msg (qtype : Nat) (rs : List Record) (res : DNSMessage)
    (n : Nat) :
    (nsLoop qtype rs res n).1 = { res with ns := res.ns ++ rs } := by
  induction rs generalizing res n with
  | nil => simp [nsLoop]
  | cons r rs ih => simp [nsLoop, ih]

/-- C2: in each iteration of the remote resolver, a parsed record from the
union of the answer, authority and additional sections ends up in the cache
exactly when its ttl is strictly positive and its qtype is neither SOA nor
MX (or it was already cached); regardless of caching, the whole answer,
authority and additional sections are appended to the outgoing response. -/
theorem remote_cache_insert_iff (res cres : DNSMessage) (qname : String)
    (qtype : Nat) (cache : Cache) (cname : List String) (n : Nat)
    (r : Record) :
    ((processResponse res cres qname qtype cache cname n).res.an =
        res.an ++ cres.an ∧
      (processResponse res cres qname qtype cache cname n).res.ns =
        res.ns ++ cres.ns ∧
      (processResponse res cres qname qtype cache cname n).res.ar =
        res.ar ++ cres.ar) ∧
    ((r.name, r) ∈ (processResponse res cres qname qtype cache cname n).cache
      ↔ (r ∈ cres.an ++ cres.ns ++ cres.ar ∧ r.ttl > 0 ∧
          r.qtype ≠ types.SOA ∧ r.qtype ≠ types.MX) ∨
        (r.name, r) ∈ cache) := by
  constructor
  · simp only [processResponse, anLoop_msg, nsLoop_msg]
    by_cases hr : cres.r > 0 <;> simp [hr]
  · simp only [processResponse]
    rw [insertLoop_mem]
    constructor
    · rintro (h | ⟨x, hx, hcx, hpx⟩)
      · exact Or.inr h
      · rcases Prod.mk.injEq .. ▸ hpx with ⟨h1, h2⟩
        subst h2
        exact Or.inl ⟨hx, hcx.1, fun hq => hcx.2 (Or.inl hq),
          fun hq => hcx.2 (Or.inr hq)⟩
    · rintro (⟨hm, ht, hs, hmx⟩ | h)
      · exact Or.inr ⟨r, hm, ⟨ht, fun hq => hq.elim hs hmx⟩, rfl⟩
      · exact Or.inl h

/-! ## The cache resolver's local-authority branch -/

theorem directLoop_no_ns (fqdn : String) (qtype : Nat) (data : List Record)
    (res : DNSMessage) (n : Nat)
    (h : ∀ rec ∈ data, rec.qtype ≠ types.NS) :
    directLoop fqdn qtype data res n =
      .ok ({ res with an := res.an ++ data.map (fun rec => rec.copy fqdn) },
        n + data.countP
          (fun rec =>
            decide (qtype = types.CNAME ∨ rec.qtype ≠ types.CNAME))) := by
  induction data generalizing res n with
  | nil => simp [directLoop]
  | cons rec rest ih =>
      have hrec : rec.qtype ≠ types.NS := h rec (by simp)
      rw [directLoop, if_neg hrec,
        ih _ _ (fun x hx => h x (List.mem_cons_of_mem _ hx))]
      by_cases hcnt : qtype = types.CNAME ∨ rec.qtype ≠ types.CNAME
      · rw [if_pos hcnt]
        simp [List.countP_cons, hcnt, List.append_assoc]
        all_goals omega
      · rw [if_neg hcnt]
        simp [List.countP_cons, hcnt, List.append_assoc]

/-- The recursive-query oracle that always reports an absent result
(`self.query` returning `None`). -/
def noRecQ : String → Nat → Option DNSMessage := fun _ _ => none

/-- A cache holding a CNAME record for the name `host.lan`, which lies under
the configured authoritative suffix `.lan`. -/
def cnameLanCache : Cache :=
  [("host.lan",
    { name := "host.lan", qtype := types.CNAME, data := "real.example",
      ttl := -1 })]

/-- The message `query_cache` produces on `cnameLanCache` for
`("host.lan", A)`: the cached CNAME is answered, but no authority synthesis
happens. -/
def cexMsg : DNSMessage :=
  { qd := [{ name := "host.lan", qtype := types.A, data := "", ttl := 0 }],
    an := [{ name := "host.lan", qtype := types.CNAME, data := "real.example",
             ttl := -1 }],
    ra := 1 }

/-- C3 counterexample: `host.lan` ends with the configured authoritative
suffix `.lan`, yet when a CNAME record is cached for it, `query_cache`
returns from the CNAME branch with `aa = 0`, no synthetic NS record and no
synthetic A record — the claim's unconditional authority synthesis fails. -/
theorem query_cache_authority_cex :
    endsWith "host.lan" ".lan" = true ∧
    query_cache noRecQ cnameLanCache [".lan"] 1 (freshRes 1 "host.lan" types.A)
        "host.lan" types.A = .ok (cexMsg, true) ∧
    cexMsg.aa = 0 ∧ cexMsg.ns = [] ∧ cexMsg.ar = [] := by
  refine ⟨by decide, by decide, by decide, by decide, by decide⟩

/-- C3 amended: for a name under a configured authoritative suffix, provided
no CNAME record is cached for it and the direct cache matches contain no NS
record (the NS branch raises `NameError`), `query_cache` sets `aa = 1`,
appends the synthetic NS `localhost` record to the authority section and the
synthetic A `127.0.0.1` record to the additional section, sets `r = 3`
exactly when no countable answer was found (leaving `r` unchanged
otherwise), and returns true. -/
theorem query_cache_authority (qc : String → Nat → Option DNSMessage)
    (cache : Cache) (rootdomains : List String) (ra : Nat) (res : DNSMessage)
    (fqdn : String) (qtype : Nat) (d : String)
    (hd : d ∈ rootdomains) (hsuf : endsWith fqdn d = true)
    (hcn : cacheQuery cache fqdn [types.CNAME] = [])
    (hns : ∀ rec ∈ cacheQuery cache fqdn [qtype], rec.qtype ≠ types.NS) :
    query_cache qc cache rootdomains ra res fqdn qtype =
      .ok ({ res with
        an := res.an ++
          (cacheQuery cache fqdn [qtype]).map (fun rec => rec.copy fqdn),
        ns := res.ns ++
          [{ name := fqdn, qtype := types.NS, data := "localhost",
             ttl := -1 }],
        ar := res.ar ++
          [{ name := fqdn, qtype := types.A, data := "127.0.0.1",
             ttl := -1 }],
        aa := 1,
        r := if (cacheQuery cache fqdn [qtype]).countP
              (fun rec =>
                decide (qtype = types.CNAME ∨ rec.qtype ≠ types.CNAME)) = 0
          then 3 else res.r }, true) := by
  have hfilter : (rootdomains.filter (fun x => endsWith fqdn x)) ≠ [] :=
    List.ne_nil_of_mem (List.mem_filter.2 ⟨hd, hsuf⟩)
  simp only [query_cache, hcn, ne_eq, not_true_eq_false, if_false,
    if_neg (by simp : ¬(([] : List Record) ≠ []))]
  rw [directLoop_no_ns fqdn qtype _ res 0 hns]
  simp only [Nat.zero_add]
  rw [if_pos hfilter]
  by_cases h0 : (cacheQuery cache fqdn [qtype]).countP
      (fun rec => decide (qtype = types.CNAME ∨ rec.qtype ≠ types.CNAME)) = 0
  · simp only [h0]
    simp
  · simp only [if_neg h0]
    simp [h0]
    have hpos := Nat.pos_of_ne_zero h0
    rw [List.countP_pos_iff] at hpos
    rcases hpos with ⟨x, hx, hpx⟩
    exact ⟨x, hx, by simpa [or_iff_not_imp_left] using hpx⟩

/-- A cache holding a single A record for `x.lan`. -/
def aLanCache : Cache :=
  [("x.lan",
    { name := "x.lan", qtype := types.A, data := "10.0.0.1", ttl := -1 })]

/-- Witness for C3's amended theorem at a concrete input: an A record cached
for `x.lan` under the authoritative suffix `.lan`. -/
theorem query_cache_authority_witness :
    query_cache noRecQ aLanCache [".lan"] 1 (freshRes 1 "x.lan" types.A)
        "x.lan" types.A =
      .ok ({ freshRes 1 "x.lan" types.A with
        an := (cacheQuery aLanCache "x.lan" [types.A]).map
          (fun rec => rec.copy "x.lan"),
        ns := [{ name := "x.lan", qtype := types.NS, data := "localhost",
                 ttl := -1 }],
        ar := [{ name := "x.lan", qtype := types.A, data := "127.0.0.1",
                 ttl := -1 }],
        aa := 1,
        r := if (cacheQuery aLanCache "x.lan" [types.A]).countP
              (fun rec =>
                decide (types.A = types.CNAME ∨ rec.qtype ≠ types.CNAME)) = 0
          then 3 else 0 }, true) := by
  have h := query_cache_authority noRecQ aLanCache [".lan"] 1
    (freshRes 1 "x.lan" types.A) "x.lan" types.A ".lan"
    (by decide) (by decide) (by decide) (by decide)
  simpa [freshRes] using h

/-! ## Transaction-id matching in the candidate loop -/

/-- C4: in the per-question candidate loop, a UDP reply whose first two bytes
differ from the first two bytes of the packed request is discarded and the
loop proceeds to the next candidate IP; any accepted reply has the request's
first two bytes as its prefix and came from one of the candidates. -/
theorem tryServers_txid (qdata : List Nat) (net : String → AttemptOutcome)
    (ip : String) (rest ips : List String) (d : List Nat)
    (hrecv : net ip = .received d)
    (hmis : (qdata.take 2).isPrefixOf d = false) :
    tryServers qdata net (ip :: rest) = tryServers qdata net rest ∧
    (∀ e, tryServers qdata net ips = some e →
      (qdata.take 2).isPrefixOf e = true ∧
        ∃ j ∈ ips, net j = .received e) := by
  constructor
  · rw [tryServers]
    simp [udpAttempt, hrecv, hmis]
  · induction ips with
    | nil =>
        intro e he
        simp [tryServers] at he
    | cons j js ih =>
        intro e he
        rw [tryServers] at he
        rcases ho : net j with _ | _ | dd <;> rw [ho] at he
        · rcases ih e (by simpa [udpAttempt] using he) with ⟨h1, j1, hj1, hn1⟩
          exact ⟨h1, j1, List.mem_cons_of_mem _ hj1, hn1⟩
        · rcases ih e (by simpa [udpAttempt] using he) with ⟨h1, j1, hj1, hn1⟩
          exact ⟨h1, j1, List.mem_cons_of_mem _ hj1, hn1⟩
        · by_cases hp : (qdata.take 2).isPrefixOf dd = true
          · simp [udpAttempt, hp] at he
            subst he
            exact ⟨hp, j, by simp, ho⟩
          · rcases ih e (by simpa [udpAttempt, hp] using he) with
              ⟨h1, j1, hj1, hn1⟩
            exact ⟨h1, j1, List.mem_cons_of_mem _ hj1, hn1⟩

/-- A network where candidate `a` replies with a wrong transaction id and
candidate `b` replies correctly. -/
def netW : String → AttemptOutcome := fun ip =>
  if ip = "a" then .received [9, 9, 1] else .received [0, 1, 7]

/-- Witness for C4 at a concrete network: the mismatched reply of candidate
`a` is discarded, and the reply accepted from candidate `b` carries the
request id. -/
theorem tryServers_txid_witness :
    netW "a" = .received [9, 9, 1] ∧
    (([0, 1, 9] : List Nat).take 2).isPrefixOf [9, 9, 1] = false ∧
    (tryServers [0, 1, 9] netW ["a", "b"] = tryServers [0, 1, 9] netW ["b"] ∧
      ∀ e, tryServers [0, 1, 9] netW ["a", "b"] = some e →
        (([0, 1, 9] : List Nat).take 2).isPrefixOf e = true ∧
          ∃ j ∈ ["a", "b"], netW j = .received e) :=
  ⟨by decide, by decide,
    tryServers_txid [0, 1, 9] netW "a" ["b"] ["a", "b"] [9, 9, 1]
      (by decide) (by decide)⟩

/-! ## The undefined variable in the cache resolver's NS branch -/

/-- A cache holding one NS record for `example.com`. -/
def nsRecCache : Cache :=
  [("example.com",
    { name := "example.com", qtype := types.NS, data := "ns1.example.com",
      ttl := -1 })]

/-- C5 (code bug): when the direct-match step of `query_cache` encounters a
cached NS record, the source evaluates `r.data` for a variable `r` that is
never defined (aresolver.py line 102; the loop variable is `rec`), so a
`NameError` escapes instead of the intended A/AAAA glue lookup for the NS
target. -/
theorem query_cache_ns_nameerror :
    cacheQuery nsRecCache "example.com" [types.NS] =
      [{ name := "example.com", qtype := types.NS, data := "ns1.example.com",
         ttl := -1 }] ∧
    query_cache noRecQ nsRecCache [".lan"] 1
        (freshRes 1 "example.com" types.NS) "example.com" types.NS =
      .error .nameError :=
  ⟨by decide, by decide⟩

/-! ## Name-server discovery label walk -/

/-- An IP test recognising exactly the literal `1.2.3.4`, a concrete stand-in
for `utils.ip_type(host) is not None`. -/
def isIPLit : String → Bool := fun h => h == "1.2.3.4"

/-- A cache holding an NS record at the full name `a.b` whose data is
already an IP. -/
def fullNameNSCache : Cache :=
  [("a.b",
    { name := "a.b", qtype := types.NS, data := "1.2.3.4", ttl := -1 })]

/-- C6 counterexample: an NS record with IP data is cached at the full name
`a.b`; a walk that starts at the full name would yield `1.2.3.4`, but
`get_nameservers` strips the first label before its first cache query and
yields nothing. -/
theorem get_nameservers_full_name_cex :
    cacheQuery fullNameNSCache "a.b" [types.NS] =
      [{ name := "a.b", qtype := types.NS, data := "1.2.3.4", ttl := -1 }] ∧
    isIPLit "1.2.3.4" = true ∧
    get_nameservers isIPLit fullNameNSCache "a.b" = [] :=
  ⟨by decide, by decide, by decide⟩

/-- From the amended claim: the label depths actually consulted, obtained by
repeatedly stripping the leading label, starting from the parent of the
given name (one label already stripped) and ending with the empty root
label. -/
def suffixChain : Nat → String → List String
  | 0, _ => []
  | f + 1, s =>
      if s = "" then []
      else (partitionDot s).2 :: suffixChain f (partitionDot s).2

/-- From the amended claim: at one consulted label depth, each cached NS
record yields its data directly when it is an IP, else the data of the
cached A/AAAA records for the target. -/
def levelYieldsSpec (isIP : String → Bool) (cache : Cache) (label : String) :
    List String :=
  (cacheQuery cache label [types.NS]).flatMap (fun rec =>
    if isIP rec.data then [rec.data]
    else (cacheQuery cache rec.data A_TYPES).map Record.data)

/-- From the amended claim: discovery stops at the first consulted depth
yielding at least one IP. -/
def firstDepthHit : List (List String) → List String
  | [] => []
  | ys :: rest => if ys = [] then firstDepthHit rest else ys

/-- From the amended claim: the whole discovery walk. -/
def nsWalkAmended (isIP : String → Bool) (cache : Cache) (fqdn : String) :
    List String :=
  firstDepthHit ((suffixChain fqdn.length fqdn).map (levelYieldsSpec isIP cache))

theorem levelYields_eq_spec : @levelYields = @levelYieldsSpec := rfl

theorem gnsLoop_eq_walk (isIP : String → Bool) (cache : Cache) (fuel : Nat)
    (s : String) :
    gnsLoop isIP cache fuel s =
      firstDepthHit ((suffixChain fuel s).map (levelYieldsSpec isIP cache)) := by
  induction fuel generalizing s with
  | zero => simp [gnsLoop, suffixChain, firstDepthHit]
  | succ f ih =>
      by_cases hs : s = ""
      · simp [gnsLoop, suffixChain, hs, firstDepthHit]
      · rw [gnsLoop, suffixChain, if_neg hs, if_neg hs, List.map_cons]
        by_cases hy : levelYields isIP cache (partitionDot s).2 = []
        · have hy' : levelYieldsSpec isIP cache (partitionDot s).2 = [] := hy
          rw [firstDepthHit, if_pos hy']
          simp [hy, ih]
        · have hy' : ¬levelYieldsSpec isIP cache (partitionDot s).2 = [] := hy
          rw [firstDepthHit, if_neg hy']
          simp only [if_neg hy, List.append_nil]
          rfl

/-- C6 amended: `get_nameservers` queries the cache for NS records starting
from the name with its first label stripped (the parent domain — the full
name itself is never consulted) down to the empty root label, yields NS data
directly when it is an IP and otherwise the data of cached A/AAAA records
for the NS target, and stops at the first consulted depth that yields at
least one IP. -/
theorem get_nameservers_amended (isIP : String → Bool) (cache : Cache)
    (fqdn : String) :
    get_nameservers isIP cache fqdn = nsWalkAmended isIP cache fqdn := by
  rw [get_nameservers, nsWalkAmended, gnsLoop_eq_walk]

/-! ## The top-level query deadline -/

/-- C7: `query` obtains (or joins) the single-flight waiter for the key and
awaits it under the 3-second deadline: when the deadline elapses before the
waiter is fulfilled it returns the absent value, otherwise the message the
waiter was completed with; a key already pending is joined without touching
the resolver state. -/
theorem query_deadline (st : ResolverState) (f : String) (q : Nat)
    (o : Nat → AwaitOutcome) :
    (o (query_future st f q).1 = .timedOut →
      query st f q o = (none, (query_future st f q).2)) ∧
    (∀ m, o (query_future st f q).1 = .fulfilled m →
      query st f q o = (some m, (query_future st f q).2)) ∧
    (∀ w, lookupFuture st.futures (f, q) = some w →
      query st f q o =
        ((match o w with
          | .timedOut => none
          | .fulfilled m => some m), st)) := by
  refine ⟨?_, ?_, ?_⟩
  · intro ho
    simp [query, ho]
  · intro m ho
    simp [query, ho]
  · intro w hw
    rcases ho : o w with m | _ <;>
      simp [query, query_future, hw, ho]

/-- The await oracle under which no waiter is fulfilled within the
3-second deadline. -/
def oTimeoutW : Nat → AwaitOutcome := fun _ => .timedOut

/-- Witness for C7 at a concrete state whose pending map already holds the
key, under the always-timing-out oracle. -/
theorem query_deadline_witness :
    oTimeoutW (query_future ⟨[(("w.test", 1), 3)], [], 4⟩ "w.test" 1).1 =
      .timedOut ∧
    query ⟨[(("w.test", 1), 3)], [], 4⟩ "w.test" 1 oTimeoutW =
      (none, (query_future ⟨[(("w.test", 1), 3)], [], 4⟩ "w.test" 1).2) :=
  ⟨by decide,
    (query_deadline ⟨[(("w.test", 1), 3)], [], 4⟩ "w.test" 1 oTimeoutW).1
      (by decide)⟩

/-! ## The per-key resolution task -/

/-- C8: for a dequeued key the resolution task builds a fresh response with
the question record appended, consults the cache resolver first, calls the
remote resolver exactly when the cache resolver returned a falsy value, sets
`r = 2` when neither produced a countable answer, removes the key's
single-flight entry, and delivers the response unless the waiter was
cancelled. -/
theorem query_key_dispatch (qc : String → Nat → Option DNSMessage)
    (cache : Cache) (rootdomains : List String) (ra : Nat)
    (remote : DNSMessage → Except PyErr (DNSMessage × Bool))
    (st : ResolverState) (f : String) (q : Nat) (cancelled : Bool)
    (res1 res2 : DNSMessage) (cret rret : Bool)
    (hc : query_cache qc cache rootdomains ra (freshRes ra f q) f q =
      .ok (res1, cret))
    (hr : remote res1 = .ok (res2, rret)) :
    (freshRes ra f q).qd = [{ name := f, qtype := q, data := "", ttl := 0 }] ∧
    query_key qc cache rootdomains ra remote st (f, q) cancelled =
      { futures := eraseKey st.futures (f, q),
        delivered := if cancelled then none
          else some (if cret then res1
            else if rret then res2 else { res2 with r := 2 }),
        remoteCalled := !cret,
        exn := none } := by
  refine ⟨rfl, ?_⟩
  simp only [query_key]
  rw [hc]
  cases cret
  · simp only [Bool.false_eq_true, if_false]
    rw [hr]
    cases rret <;> simp [finishKey]
  · simp [finishKey]

/-- A remote-resolver oracle that reports success with the response
unchanged. -/
def remoteW : DNSMessage → Except PyErr (DNSMessage × Bool) :=
  fun res => .ok (res, true)

/-- Witness for C8 at a concrete input: empty cache, no authoritative
suffix, a remote oracle that succeeds. -/
theorem query_key_dispatch_witness :
    query_cache noRecQ [] [] 1 (freshRes 1 "q.test" 1) "q.test" 1 =
      .ok (freshRes 1 "q.test" 1, false) ∧
    remoteW (freshRes 1 "q.test" 1) = .ok (freshRes 1 "q.test" 1, true) ∧
    ((freshRes 1 "q.test" 1).qd =
      [{ name := "q.test", qtype := 1, data := "", ttl := 0 }] ∧
    query_key noRecQ [] [] 1 remoteW ⟨[(("q.test", 1), 5)], [], 6⟩
        ("q.test", 1) false =
      { futures := eraseKey [(("q.test", 1), 5)] ("q.test", 1),
        delivered := if false then none
          else some (if false then freshRes 1 "q.test" 1
            else if true then freshRes 1 "q.test" 1
            else { freshRes 1 "q.test" 1 with r := 2 }),
        remoteCalled := !false,
        exn := none }) :=
  ⟨by decide, by decide,
    query_key_dispatch noRecQ [] [] 1 remoteW ⟨[(("q.test", 1), 5)], [], 6⟩
      "q.test" 1 false (freshRes 1 "q.test" 1) (freshRes 1 "q.test" 1)
      false true (by decide) (by decide)⟩

/-! ## Endpoint closure -/

/-- C9 (code bug): when a datagram arrives the transport is closed — both
when the reply is accepted and when its transaction id mismatches — but on
the 3-second read timeout the `asyncio.TimeoutError` handler (aresolver.py
lines 164-165) is reached without any call to `transport.close()`, so the
endpoint of that attempt is left open. -/
theorem udp_attempt_close_paths :
    (udpAttempt [0, 1] (.received [0, 1, 5])).closed = true ∧
    (udpAttempt [0, 1] (.received [9, 9, 5])).closed = true ∧
    (udpAttempt [0, 1] (.received [9, 9, 5])).reply = none ∧
    (udpAttempt [0, 1] AttemptOutcome.readTimeout).closed = false :=
  ⟨by decide, by decide, by decide, by decide⟩

/-! ## Pending entries orphaned by an escaping exception -/

/-- C10: if the cache resolver raises while resolving a key, or the cache
resolver returns a falsy value and the remote resolver then raises, the
resolution task neither removes the key's pending entry nor fulfils its
waiter; a subsequent `query` for the same key joins the stored waiter
without enqueueing a new resolution and, the waiter never being fulfilled,
returns the absent value after the deadline. -/
theorem query_key_exception_persists (qc : String → Nat → Option DNSMessage)
    (cache : Cache) (rootdomains : List String) (ra : Nat)
    (remote : DNSMessage → Except PyErr (DNSMessage × Bool))
    (st : ResolverState) (f : String) (q : Nat) (cancelled : Bool)
    (e : PyErr) (w : Nat) (o : Nat → AwaitOutcome)
    (hx : query_cache qc cache rootdomains ra (freshRes ra f q) f q =
        .error e ∨
      ∃ res1, query_cache qc cache rootdomains ra (freshRes ra f q) f q =
          .ok (res1, false) ∧ remote res1 = .error e)
    (hw : lookupFuture st.futures (f, q) = some w)
    (ho : o w = .timedOut) :
    ((query_key qc cache rootdomains ra remote st (f, q) cancelled).futures =
        st.futures ∧
      (query_key qc cache rootdomains ra remote st (f, q)
        cancelled).delivered = none ∧
      (query_key qc cache rootdomains ra remote st (f, q) cancelled).exn =
        some e) ∧
    query_future st f q = (w, st) ∧
    query st f q o = (none, st) := by
  refine ⟨?_, ?_, ?_⟩
  · rcases hx with hc | ⟨res1, hc, hr⟩
    · simp only [query_key]
      rw [hc]
      exact ⟨rfl, rfl, rfl⟩
    · simp only [query_key]
      rw [hc]
      simp only [Bool.false_eq_true, if_false]
      rw [hr]
      exact ⟨rfl, rfl, rfl⟩
  · simp [query_future, hw]
  · simp [query, query_future, hw, ho]

/-- A remote-resolver oracle that raises (e.g. `utils.raw_parse` failing on
the received datagram at aresolver.py line 172). -/
def remoteErrW : DNSMessage → Except PyErr (DNSMessage × Bool) :=
  fun _ => .error .dnsError

/-- Witness for C10 at concrete inputs, exercising both raising paths: a
cache holding an NS record makes the cache resolver raise `NameError`, and
with an empty cache the cache resolver returns a falsy value after which
the remote resolver raises; in each case the pending entry for the key
survives and a later query for it times out to the absent value. -/
theorem query_key_exception_persists_witness :
    (query_cache noRecQ nsRecCache [] 1 (freshRes 1 "example.com" 2)
        "example.com" 2 = .error PyErr.nameError ∧
     lookupFuture [((("example.com" : String), (2 : Nat)), 9)]
        ("example.com", 2) = some 9 ∧
     oTimeoutW 9 = .timedOut ∧
     (((query_key noRecQ nsRecCache [] 1 remoteW
          ⟨[(("example.com", 2), 9)], [], 10⟩ ("example.com", 2)
          false).futures = [(("example.com", 2), 9)] ∧
       (query_key noRecQ nsRecCache [] 1 remoteW
          ⟨[(("example.com", 2), 9)], [], 10⟩ ("example.com", 2)
          false).delivered = none ∧
       (query_key noRecQ nsRecCache [] 1 remoteW
          ⟨[(("example.com", 2), 9)], [], 10⟩ ("example.com", 2)
          false).exn = some PyErr.nameError) ∧
      query_future ⟨[(("example.com", 2), 9)], [], 10⟩ "example.com" 2 =
        (9, ⟨[(("example.com", 2), 9)], [], 10⟩) ∧
      query ⟨[(("example.com", 2), 9)], [], 10⟩ "example.com" 2 oTimeoutW =
        (none, ⟨[(("example.com", 2), 9)], [], 10⟩))) ∧
    (query_cache noRecQ [] [] 1 (freshRes 1 "r.test" 1) "r.test" 1 =
        .ok (freshRes 1 "r.test" 1, false) ∧
     remoteErrW (freshRes 1 "r.test" 1) = .error PyErr.dnsError ∧
     lookupFuture [((("r.test" : String), (1 : Nat)), 4)] ("r.test", 1) =
       some 4 ∧
     (((query_key noRecQ [] [] 1 remoteErrW ⟨[(("r.test", 1), 4)], [], 5⟩
          ("r.test", 1) false).futures = [(("r.test", 1), 4)] ∧
       (query_key noRecQ [] [] 1 remoteErrW ⟨[(("r.test", 1), 4)], [], 5⟩
          ("r.test", 1) false).delivered = none ∧
       (query_key noRecQ [] [] 1 remoteErrW ⟨[(("r.test", 1), 4)], [], 5⟩
          ("r.test", 1) false).exn = some PyErr.dnsError) ∧
      query_future ⟨[(("r.test", 1), 4)], [], 5⟩ "r.test" 1 =
        (4, ⟨[(("r.test", 1), 4)], [], 5⟩) ∧
      query ⟨[(("r.test", 1), 4)], [], 5⟩ "r.test" 1 oTimeoutW =
        (none, ⟨[(("r.test", 1), 4)], [], 5⟩))) :=
  ⟨⟨by decide, by decide, by decide,
    query_key_exception_persists noRecQ nsRecCache [] 1 remoteW
      ⟨[(("example.com", 2), 9)], [], 10⟩ "example.com" 2 false
      PyErr.nameError 9 oTimeoutW (Or.inl (by decide)) (by decide)
      (by decide)⟩,
   ⟨by decide, by decide, by decide,
    query_key_exception_persists noRecQ [] [] 1 remoteErrW
      ⟨[(("r.test", 1), 4)], [], 5⟩ "r.test" 1 false
      PyErr.dnsError 4 oTimeoutW
      (Or.inr ⟨freshRes 1 "r.test" 1, by decide, by decide⟩) (by decide)
      (by decide)⟩⟩

end pydns
